import Mathlib

set_option maxRecDepth 20000

/-!  Verification of the motion-field color coding (gopimage) and the image grid
layout (image_grid) of tsbb15_labs/lab2.py, over a shallow embedding in which
NumPy float arithmetic is idealized as real arithmetic.  -/

namespace TSBB15

/-- NumPy dtypes relevant to the input check of gopimage. -/
inductive DType where
  | float64
  | float32
  | complex64
  | complex128
deriving DecidableEq

/-- Shape and dtype header of a NumPy array. The validation in gopimage
(lab2.py lines 102 to 111) inspects only ndim, dtype and the third shape
entry, so it is embedded as a function of this header. -/
structure ArrayHeader where
  shape : List Nat
  dtype : DType
deriving DecidableEq

/-- The dtype test on line 102: V.dtype == np.complex compares the dtype with
the builtin complex type, which is complex128; a complex64 dtype compares
unequal. -/
def isNpComplex : DType → Bool
  | DType.complex128 => true
  | _ => false

/-- Branch condition of gopimage, lines 102 to 110: the first branch accepts a
2-D array of dtype complex128, the second accepts any 3-D array whose third
axis has extent 2, and everything else raises ValueError. -/
def gopAccepts (h : ArrayHeader) : Bool :=
  (h.shape.length == 2 && isNpComplex h.dtype) ||
  (h.shape.length == 3 && h.shape.getD 2 0 == 2)

/-- gopimage raises its shape ValueError (line 111) exactly when neither branch
guard holds. -/
def gopRaisesShape (h : ArrayHeader) : Bool := !gopAccepts h

/-- Message of the shape error, line 111. -/
def gopShapeMsg : String := "Input must be real MxNx2 array, or complex MxN array"

/-- Whether a dtype is complex-valued. -/
def isComplexDtype : DType → Bool
  | DType.complex64 => true
  | DType.complex128 => true
  | _ => false

/-- Modelled from the spec wording of claim C5, for comparison with gopAccepts:
a real array of shape (rows, cols, 2), or a complex-valued array of shape
(rows, cols). -/
def specAcceptedForm (h : ArrayHeader) : Bool :=
  (h.shape.length == 3 && h.shape.getD 2 0 == 2 && !isComplexDtype h.dtype) ||
  (h.shape.length == 2 && isComplexDtype h.dtype)

/-- Value-level model of the two documented gopimage inputs: a complex
(rows, cols) array, or a real (rows, cols, 2) array of (x, y) components. -/
inductive Field where
  | cplx (data : List (List ℂ))
  | real2 (data : List (List (ℝ × ℝ)))

/-- Lines 102 to 109 of lab2.py: in the complex branch W is the array V itself
(W = V); in the real branch W = Vx + 1j * Vy is a fresh complex array. -/
def toW : Field → List (List ℂ)
  | Field.cplx d => d
  | Field.real2 d => d.map (fun row => row.map (fun p => ⟨p.1, p.2⟩))

/-- Line 114: max_mag = np.max(np.abs(W)). For a nonzero-size W the fold with
initial value 0 agrees with the NumPy maximum, because absolute values are
nonnegative; gopimage only evaluates it after ruling out the zero-size case,
where np.max raises. -/
noncomputable def maxMag (W : List (List ℂ)) : ℝ :=
  (W.flatten.map Complex.abs).foldl max 0


/-- Numerators of the fixed 256-entry hue table GOPTABLE of lab2.py (lines 140
to 395). Every float literal in the source table is an exact integer multiple
of 1/256; this list holds those integers (the first source row
0.28125, 0.90234375, 0.140625 is 72/256, 231/256, 36/256, and so on).
The theorem GOPTABLE_matches_source below checks sample rows against the
source literals. -/
def GOPTABLE256 : List (Nat × Nat × Nat) := [
(72, 231, 36),
  (69, 233, 38),
  (66, 234, 41),
  (63, 236, 43),
  (60, 238, 46),
  (57, 239, 49),
  (54, 241, 52),
  (52, 243, 55),
  (50, 244, 59),
  (47, 245, 62),
  (45, 247, 65),
  (43, 248, 69),
  (42, 249, 73),
  (40, 250, 76),
  (38, 251, 80),
  (37, 252, 84),
  (36, 253, 88),
  (35, 254, 92),
  (34, 254, 96),
  (34, 254, 101),
  (33, 255, 105),
  (33, 255, 110),
  (33, 255, 114),
  (33, 255, 119),
  (33, 255, 123),
  (34, 254, 128),
  (34, 254, 133),
  (35, 253, 137),
  (36, 252, 142),
  (37, 251, 147),
  (39, 250, 151),
  (40, 249, 156),
  (42, 247, 161),
  (44, 246, 166),
  (46, 244, 170),
  (49, 242, 175),
  (51, 240, 180),
  (54, 238, 184),
  (56, 236, 189),
  (59, 233, 193),
  (62, 230, 197),
  (66, 228, 202),
  (69, 225, 206),
  (73, 222, 210),
  (76, 218, 213),
  (80, 215, 217),
  (84, 212, 221),
  (88, 208, 224),
  (92, 204, 228),
  (96, 201, 231),
  (100, 197, 234),
  (105, 193, 237),
  (109, 189, 239),
  (113, 185, 242),
  (118, 181, 244),
  (122, 176, 246),
  (127, 172, 248),
  (131, 168, 250),
  (136, 163, 251),
  (140, 159, 252),
  (144, 154, 253),
  (149, 150, 254),
  (153, 145, 255),
  (157, 141, 255),
  (161, 136, 255),
  (165, 132, 255),
  (169, 127, 255),
  (173, 123, 254),
  (177, 119, 253),
  (181, 114, 252),
  (184, 110, 251),
  (187, 106, 250),
  (191, 101, 248),
  (194, 97, 246),
  (197, 93, 244),
  (200, 89, 242),
  (202, 85, 239),
  (205, 81, 237),
  (207, 77, 234),
  (209, 74, 231),
  (211, 70, 228),
  (213, 66, 224),
  (214, 63, 221),
  (216, 60, 217),
  (217, 56, 213),
  (218, 53, 210),
  (219, 50, 206),
  (220, 47, 202),
  (221, 45, 197),
  (222, 42, 193),
  (222, 39, 189),
  (223, 37, 184),
  (223, 34, 180),
  (223, 32, 175),
  (223, 30, 170),
  (223, 28, 166),
  (223, 26, 161),
  (223, 24, 156),
  (222, 22, 151),
  (222, 20, 147),
  (222, 19, 142),
  (221, 17, 137),
  (221, 16, 133),
  (221, 15, 128),
  (220, 13, 123),
  (220, 12, 119),
  (220, 11, 114),
  (219, 10, 110),
  (219, 9, 105),
  (219, 9, 101),
  (218, 8, 96),
  (218, 7, 92),
  (218, 6, 88),
  (218, 6, 84),
  (218, 5, 80),
  (218, 5, 76),
  (218, 5, 73),
  (218, 4, 69),
  (219, 4, 65),
  (219, 4, 62),
  (219, 4, 59),
  (220, 4, 55),
  (221, 4, 52),
  (221, 4, 49),
  (222, 4, 46),
  (223, 4, 43),
  (224, 4, 41),
  (225, 4, 38),
  (226, 5, 36),
  (227, 5, 33),
  (228, 5, 31),
  (229, 6, 29),
  (230, 6, 27),
  (231, 7, 25),
  (233, 7, 23),
  (234, 8, 22),
  (235, 9, 20),
  (236, 10, 18),
  (238, 11, 17),
  (239, 11, 16),
  (240, 12, 14),
  (241, 13, 13),
  (243, 15, 12),
  (244, 16, 11),
  (245, 17, 10),
  (246, 18, 9),
  (247, 20, 8),
  (248, 21, 7),
  (249, 23, 7),
  (250, 24, 6),
  (251, 26, 5),
  (251, 28, 5),
  (252, 29, 4),
  (253, 31, 4),
  (253, 33, 3),
  (254, 35, 3),
  (254, 37, 3),
  (254, 39, 2),
  (255, 41, 2),
  (255, 44, 2),
  (255, 46, 2),
  (255, 48, 1),
  (255, 51, 1),
  (255, 53, 1),
  (255, 56, 1),
  (255, 58, 1),
  (254, 61, 1),
  (254, 63, 1),
  (254, 66, 0),
  (253, 69, 0),
  (253, 72, 0),
  (252, 74, 0),
  (252, 77, 0),
  (251, 80, 0),
  (251, 83, 0),
  (250, 85, 0),
  (250, 88, 0),
  (249, 91, 0),
  (249, 94, 0),
  (248, 97, 0),
  (247, 100, 0),
  (247, 102, 0),
  (246, 105, 0),
  (245, 108, 0),
  (245, 111, 0),
  (244, 113, 0),
  (243, 116, 0),
  (243, 119, 0),
  (242, 121, 0),
  (241, 124, 0),
  (241, 126, 0),
  (240, 129, 0),
  (239, 131, 0),
  (238, 133, 0),
  (238, 136, 0),
  (237, 138, 0),
  (236, 140, 0),
  (235, 142, 0),
  (234, 144, 0),
  (233, 146, 0),
  (233, 148, 0),
  (232, 150, 0),
  (231, 152, 0),
  (229, 154, 0),
  (228, 156, 0),
  (227, 157, 0),
  (226, 159, 0),
  (224, 160, 0),
  (223, 162, 0),
  (221, 163, 0),
  (220, 165, 0),
  (218, 166, 0),
  (216, 168, 0),
  (215, 169, 0),
  (213, 170, 0),
  (211, 172, 0),
  (208, 173, 0),
  (206, 174, 1),
  (204, 175, 1),
  (201, 176, 1),
  (199, 178, 1),
  (196, 179, 1),
  (194, 180, 1),
  (191, 181, 1),
  (188, 182, 2),
  (185, 183, 2),
  (182, 185, 2),
  (179, 186, 2),
  (175, 187, 3),
  (172, 188, 3),
  (169, 189, 3),
  (165, 191, 4),
  (161, 192, 4),
  (158, 193, 5),
  (154, 195, 5),
  (150, 196, 6),
  (147, 197, 7),
  (143, 199, 7),
  (139, 200, 8),
  (135, 202, 9),
  (131, 203, 10),
  (127, 205, 11),
  (123, 207, 12),
  (120, 208, 13),
  (116, 210, 14),
  (112, 212, 16),
  (108, 213, 17),
  (104, 215, 18),
  (100, 217, 20),
  (97, 219, 22),
  (93, 220, 23),
  (89, 222, 25),
  (86, 224, 27),
  (82, 226, 29),
  (79, 227, 31),
  (75, 229, 33)
  ]

/-- The source hue table itself, as exact rationals. -/
def GOPTABLE : List (ℚ × ℚ × ℚ) :=
  GOPTABLE256.map (fun t => ((t.1 : ℚ) / 256, (t.2.1 : ℚ) / 256, (t.2.2 : ℚ) / 256))

/-- Cross-check of the transcription: rows 0, 1, 127 and 255 of GOPTABLE equal
the float literals of the source rows (lines 140, 141, 267 and 395). -/
theorem GOPTABLE_matches_source :
    GOPTABLE.getD 0 (0, 0, 0) = (0.28125, 0.90234375, 0.140625) ∧
    GOPTABLE.getD 1 (0, 0, 0) = (0.26953125, 0.91015625, 0.1484375) ∧
    GOPTABLE.getD 127 (0, 0, 0) = (0.87890625, 0.015625, 0.1484375) ∧
    GOPTABLE.getD 255 (0, 0, 0) = (0.29296875, 0.89453125, 0.12890625) := by
  have h0 : GOPTABLE.getD 0 (0, 0, 0) =
      ((72 : ℚ) / 256, (231 : ℚ) / 256, (36 : ℚ) / 256) := rfl
  have h1 : GOPTABLE.getD 1 (0, 0, 0) =
      ((69 : ℚ) / 256, (233 : ℚ) / 256, (38 : ℚ) / 256) := rfl
  have h127 : GOPTABLE.getD 127 (0, 0, 0) =
      ((225 : ℚ) / 256, (4 : ℚ) / 256, (38 : ℚ) / 256) := rfl
  have h255 : GOPTABLE.getD 255 (0, 0, 0) =
      ((75 : ℚ) / 256, (229 : ℚ) / 256, (33 : ℚ) / 256) := rfl
  rw [h0, h1, h127, h255]
  norm_num

/-- Line 121: gtab = np.vstack((GOPTABLE, GOPTABLE[0])), the 257-entry cyclic
table whose final entry repeats entry 0. -/
def gtab : List (ℚ × ℚ × ℚ) := GOPTABLE ++ [GOPTABLE.headD (0, 0, 0)]

/-- Line 122: gtab_angles = 2 * np.pi * np.arange(256 + 1) / 256, the k-th
anchor angle of the interpolant. -/
noncomputable def gtab_angles (k : ℕ) : ℝ := 2 * Real.pi * k / 256

/-- Entry k of the cyclic table as a real RGB triple (out-of-range indices
yield the unused default). -/
noncomputable def rgbAt (k : ℕ) : ℝ × ℝ × ℝ :=
  (((gtab.getD k (0, 0, 0)).1 : ℝ), ((gtab.getD k (0, 0, 0)).2.1 : ℝ),
    ((gtab.getD k (0, 0, 0)).2.2 : ℝ))

/-- Line 123: cmap_table = scipy.interpolate.interp1d(gtab_angles, gtab, axis=0),
piecewise-linear interpolation on the uniform anchor grid gtab_angles. Between
anchors k and k+1 the interpolant returns (1 - t) * gtab[k] + t * gtab[k+1]
with t = (theta - gtab_angles k) / (2 * pi / 256); the fractional index
u = theta * 256 / (2 * pi) determines k = floor u, the top anchor u = 256
falling in the last interval with t = 1. This closed form is the interp1d
semantics specialized to the uniform grid of line 122. -/
noncomputable def cmap_table (θ : ℝ) : ℝ × ℝ × ℝ :=
  let u : ℝ := θ * 256 / (2 * Real.pi)
  let k : ℕ := min (Int.toNat ⌊u⌋) 255
  let t : ℝ := u - k
  let a := rgbAt k
  let b := rgbAt (k + 1)
  ((1 - t) * a.1 + t * b.1, (1 - t) * a.2.1 + t * b.2.1,
    (1 - t) * a.2.2 + t * b.2.2)

/-- Line 126: abs_w = np.minimum(1, scale * np.abs(W)), the intensity of one
sample. -/
noncomputable def absW (scale : ℝ) (w : ℂ) : ℝ := min 1 (scale * Complex.abs w)

/-- Line 127: angle_w = np.clip(np.pi + np.angle(-W), 0, 2 * np.pi); np.angle
returns the polar angle in the interval from -pi exclusive to pi inclusive,
embedded as Complex.arg. -/
noncomputable def angleW (w : ℂ) : ℝ :=
  min (max (Real.pi + Complex.arg (-w)) 0) (2 * Real.pi)

/-- Lines 129 to 131: one output pixel, the interpolated RGB at the hue angle
with every channel multiplied by the intensity. -/
noncomputable def gopPixel (scale : ℝ) (w : ℂ) : ℝ × ℝ × ℝ :=
  let i := absW scale w
  let c := cmap_table (angleW w)
  (i * c.1, i * c.2.1, i * c.2.2)

/-- Failure reachable in gopimage on a well-shaped input: np.max over a
zero-size array (line 114) raises ValueError. -/
inductive GopError where
  | emptyReduction
deriving DecidableEq

/-- State of the caller array V after a gopimage call whose working array ended
as W2: the complex branch aliases W to V, so V holds W2 afterwards, while the
real branch leaves V untouched. -/
def vAfter (V : Field) (W2 : List (List ℂ)) : Field :=
  match V with
  | Field.cplx _ => Field.cplx W2
  | Field.real2 d => Field.real2 d

/-- gopimage (lab2.py lines 84 to 136) on a well-shaped input. The result pairs
the computed color image with the state of the caller array V after the call:
in the complex branch W is V itself, so the in-place division W /= max_mag on
line 118 writes through to the caller array, while the real branch builds a
fresh W and leaves V untouched. The function contains no validation of scale.
The trailing imshow call only displays the image and is not part of the
numeric result. -/
noncomputable def gopimage (V : Field) (scale : ℝ) :
    Except GopError (List (List (ℝ × ℝ × ℝ)) × Field) :=
  let W := toW V
  if W.flatten.isEmpty then Except.error GopError.emptyReduction
  else
    let m := maxMag W
    let W2 := if m = 0 then W
      else W.map (fun row => row.map (fun w => w / ((m : ℝ) : ℂ)))
    let img := W2.map (fun row => row.map (gopPixel scale))
    Except.ok (img, vAfter V W2)

/-- Pointwise scaling of a motion field by a real constant, in either
representation (used to state claim C10). -/
noncomputable def smulField (c : ℝ) : Field → Field
  | Field.cplx d => Field.cplx (d.map (fun row => row.map (fun w => (c : ℂ) * w)))
  | Field.real2 d => Field.real2 (d.map (fun row => row.map (fun p => (c * p.1, c * p.2))))

/-- Failure modes of image_grid: the builtin min over an empty sequence
(line 65 with no panels), np.min over a zero-size panel (same line), division
by zero when nrows = 0 and ncols must be computed (line 60), and the grid
helper of line 71 receiving zero axes (the axes-grid constructor requires a
positive number of grids). -/
inductive GridError where
  | emptyMin
  | emptyPanel
  | zeroDivision
  | gridZero
deriving DecidableEq

/-- One drawn panel: the image passed to ax.imshow on line 75 together with the
normalization passed alongside it; none models norm=None. Titles and colorbars
are presentation-only and carry no numeric content. -/
structure DrawRec where
  image : List (List ℝ)
  norm : Option (ℝ × ℝ)

/-- Minimum of a list of reals, folding from the head; on a nonempty list this
is np.min and the builtin min. -/
noncomputable def listMin (xs : List ℝ) : ℝ := xs.foldl min (xs.headD 0)

/-- Maximum of a list of reals, folding from the head; on a nonempty list this
is np.max and the builtin max. -/
noncomputable def listMax (xs : List ℝ) : ℝ := xs.foldl max (xs.headD 0)

/-- Lines 59 to 60 of lab2.py for an absent column count:
ncols = int(np.ceil(len(images) / nrows)), which for the array sizes at hand
is the exact ceiling division (count + nrows - 1) / nrows; Python raises
ZeroDivisionError when nrows = 0. -/
def gridNcols (count nrows : ℕ) : Except GridError ℕ :=
  if nrows = 0 then Except.error GridError.zeroDivision
  else Except.ok ((count + nrows - 1) / nrows)

/-- Line 59: the falsiness test on ncols treats both None and 0 as an absent column count
and computes it from the panel count; any other supplied value is used as is. -/
def gridNcolsArg (count nrows : ℕ) (ncols : Option ℕ) : Except GridError ℕ :=
  match ncols with
  | some n => if n = 0 then gridNcols count nrows else Except.ok n
  | none => gridNcols count nrows

/-- Lines 65 to 67: the shared normalization vmin = min(np.min(im) for im),
vmax = max(np.max(im) for im), computed over every panel before anything is
drawn. The builtin min raises on an empty sequence (no panels) and np.min
raises on a zero-size panel. -/
noncomputable def gridSharedNorm (images : List (List (List ℝ))) :
    Except GridError (Option (ℝ × ℝ)) :=
  if images.isEmpty then Except.error GridError.emptyMin
  else if images.any (fun im => im.flatten.isEmpty) then
    Except.error GridError.emptyPanel
  else
    Except.ok (some (listMin (images.map (fun im => listMin im.flatten)),
      listMax (images.map (fun im => listMax im.flatten))))

/-- Lines 62 to 67: with separate_colorbars the normalization is None and no
shared range is computed; otherwise the shared range is computed up front. -/
noncomputable def gridNorm (images : List (List (List ℝ)))
    (separate_colorbars : Bool) : Except GridError (Option (ℝ × ℝ)) :=
  if separate_colorbars then Except.ok none else gridSharedNorm images

/-- image_grid (lab2.py lines 18 to 82) with the panels given as an ordered
list of 2-D arrays. After the column count (line 59) and the normalization
policy (lines 62 to 67) are resolved, line 71 creates nrows * ncols axes with
the ImageGrid helper, which rejects a zero axes count, and lines 73 to 80 zip
the axes with the panels - truncating to the shorter of the two lists - and
draw each panel with the one resolved normalization. The returned records are
the drawn panels in drawing order; titles and colorbars carry no numeric
content and are not modelled. -/
noncomputable def image_grid (images : List (List (List ℝ))) (nrows : ℕ)
    (ncols : Option ℕ) (separate_colorbars : Bool) :
    Except GridError (List DrawRec) :=
  Except.bind (gridNcolsArg images.length nrows ncols) (fun nc =>
    Except.bind (gridNorm images separate_colorbars) (fun norm =>
      if nrows * nc = 0 then Except.error GridError.gridZero
      else
        Except.ok ((images.take (nrows * nc)).map
          (fun im => { image := im, norm := norm }))))

/-! ### Helper lemmas -/

theorem isNpComplex_iff (d : DType) : isNpComplex d = true ↔ d = DType.complex128 := by
  cases d <;> simp [isNpComplex]

theorem gopAccepts_iff (h : ArrayHeader) :
    gopAccepts h = true ↔
      ((h.shape.length = 2 ∧ h.dtype = DType.complex128) ∨
        (h.shape.length = 3 ∧ h.shape.getD 2 0 = 2)) := by
  simp [gopAccepts, isNpComplex_iff]

theorem cmap_table_zero : cmap_table 0 = rgbAt 0 := by
  simp only [cmap_table]
  norm_num

theorem cmap_table_two_pi : cmap_table (2 * Real.pi) = rgbAt 256 := by
  have hu : 2 * Real.pi * 256 / (2 * Real.pi) = 256 := by
    rw [mul_comm (2 * Real.pi) 256, mul_div_assoc, div_self (by positivity), mul_one]
  simp only [cmap_table, hu]
  norm_num

theorem gtab_getD_256 : gtab.getD 256 (0, 0, 0) = gtab.getD 0 (0, 0, 0) := rfl

theorem rgbAt_256 : rgbAt 256 = rgbAt 0 := by
  unfold rgbAt
  rw [gtab_getD_256]

/-! ### Claim C5 -/

/-- C5 counterexample: a complex128 array of shape (1, 1, 2) is neither a real
(rows, cols, 2) array nor a complex (rows, cols) array, so under the claim it
must raise InvalidFieldShape, but the branch on lines 104 to 109 accepts any
3-D array whose third axis has extent 2, complex dtypes included. -/
theorem gopimage_accepts_complex_3d :
    gopRaisesShape ⟨[1, 1, 2], DType.complex128⟩ = false ∧
      specAcceptedForm ⟨[1, 1, 2], DType.complex128⟩ = false := by
  constructor <;> rfl

/-- C5 (amended): gopimage raises the shape ValueError exactly when the input
is neither a 2-D array of dtype complex128 nor a 3-D array whose third axis
has extent 2. In particular a 2-D complex64 array is rejected although it is
complex-valued of shape (rows, cols), and a complex128 array of shape
(rows, cols, 2) is accepted although it is not real; the error message names
the two required shapes. -/
theorem gopimage_shape_check_iff :
    (∀ h : ArrayHeader,
      gopRaisesShape h = true ↔
        ¬ ((h.shape.length = 2 ∧ h.dtype = DType.complex128) ∨
          (h.shape.length = 3 ∧ h.shape.getD 2 0 = 2))) ∧
    gopRaisesShape ⟨[5, 7], DType.complex64⟩ = true ∧
    gopRaisesShape ⟨[5, 7, 2], DType.complex128⟩ = false ∧
    gopShapeMsg = "Input must be real MxNx2 array, or complex MxN array" := by
  refine ⟨fun h => ?_, rfl, rfl, rfl⟩
  rw [← gopAccepts_iff]
  simp [gopRaisesShape]

/-! ### Claim C9 -/

/-- C9: the cyclic hue table has exactly 257 entries, the final wrap entry
equals entry 0, the anchor axis runs from 0 to 2 pi in 257 evenly spaced
steps of 2 pi / 256, and the interpolant takes the same value at angle 0 and
angle 2 pi. -/
theorem gtab_cyclic :
    gtab.length = 257 ∧
    gtab.getD 256 (0, 0, 0) = gtab.getD 0 (0, 0, 0) ∧
    gtab_angles 0 = 0 ∧
    gtab_angles 256 = 2 * Real.pi ∧
    (∀ k : Fin 256, gtab_angles (k.val + 1) - gtab_angles k.val = 2 * Real.pi / 256) ∧
    cmap_table 0 = cmap_table (2 * Real.pi) := by
  refine ⟨rfl, gtab_getD_256, ?_, ?_, fun k => ?_, ?_⟩
  · simp [gtab_angles]
  · rw [gtab_angles]
    push_cast
    field_simp
  · rw [gtab_angles, gtab_angles]
    push_cast
    ring
  · rw [cmap_table_zero, cmap_table_two_pi, rgbAt_256]

/-! ### Claims C7 and C8 -/

/-- C7 counterexample: with an empty panel collection and the shared
normalization policy, image_grid raises a ValueError from the builtin min
over an empty sequence (line 65) instead of returning an empty handle list. -/
theorem image_grid_empty_raises_cex :
    image_grid [] 1 none false = Except.error GridError.emptyMin := rfl

/-- C7 (amended): for every nrows of at least 1, an empty panel collection is
an error, not an empty layout: with separate_colorbars=False the builtin min
over the empty sequence of panel minima raises, and with
separate_colorbars=True the computed column count is 0 and the grid helper
rejects the zero-size grid. -/
theorem image_grid_empty_errors (nrows : ℕ) (h : 1 ≤ nrows) :
    image_grid [] nrows none false = Except.error GridError.emptyMin ∧
    image_grid [] nrows none true = Except.error GridError.gridZero := by
  have h0 : ¬ nrows = 0 := by omega
  have hnc : gridNcolsArg (List.length ([] : List (List (List ℝ)))) nrows none =
      Except.ok 0 := by
    simp [gridNcolsArg, gridNcols, h0, Nat.div_eq_of_lt (by omega : nrows - 1 < nrows)]
  constructor
  · unfold image_grid
    rw [hnc]
    rfl
  · unfold image_grid
    rw [hnc]
    rfl

/-- C7 witness: the amended statement at nrows = 1. -/
theorem image_grid_empty_errors_witness :
    (1 : ℕ) ≤ 1 ∧
    image_grid [] 1 none false = Except.error GridError.emptyMin ∧
    image_grid [] 1 none true = Except.error GridError.gridZero :=
  ⟨by norm_num, (image_grid_empty_errors 1 (by norm_num)).1,
    (image_grid_empty_errors 1 (by norm_num)).2⟩

/-- C8 counterexample: two panels with nrows = 1 and a supplied ncols = 1, so
that ncols * nrows < count, raise no error at all: the zip on line 74
silently truncates and only the first panel is drawn, returning one handle
for two input panels. -/
theorem image_grid_truncates_cex :
    image_grid [[[(0 : ℝ)]], [[(0 : ℝ)]]] 1 (some 1) true =
      Except.ok [{ image := [[(0 : ℝ)]], norm := none }] ∧
    ([[[(0 : ℝ)]], [[(0 : ℝ)]]] : List (List (List ℝ))).length = 2 := by
  constructor <;> rfl

/-- C8 (amended): image_grid performs no layout validation and raises no
InvalidLayout error. When nrows is at least 1 and the supplied grid capacity
nrows * ncols is at least the panel count, every panel is drawn in input
order with one handle per panel (for an undersized supplied capacity the
panel list is silently truncated instead, as the counterexample shows); and
nrows = 0 with an absent column count fails with a ZeroDivisionError from the
column computation, not an InvalidLayout error. -/
theorem image_grid_no_layout_validation :
    (∀ (images : List (List (List ℝ))) (nrows n : ℕ) (sep : Bool),
      1 ≤ nrows → images ≠ [] → images.length ≤ nrows * n →
      (∀ im ∈ images, im.flatten ≠ []) →
      ∃ recs, image_grid images nrows (some n) sep = Except.ok recs ∧
        recs.map DrawRec.image = images) ∧
    (∀ (images : List (List (List ℝ))) (sep : Bool),
      image_grid images 0 none sep = Except.error GridError.zeroDivision) := by
  constructor
  · intro images nrows n sep hnr hne hcap hp
    have hcount : 0 < images.length := List.length_pos.mpr hne
    have hn : ¬ n = 0 := by
      rintro rfl
      rw [Nat.mul_zero] at hcap
      omega
    have hgrid : ¬ nrows * n = 0 := by omega
    have htake : images.take (nrows * n) = images := List.take_of_length_le hcap
    have hnc : gridNcolsArg images.length nrows (some n) = Except.ok n := by
      simp [gridNcolsArg, hn]
    have hnorm : ∃ ν, gridNorm images sep = Except.ok ν := by
      cases sep with
      | true => exact ⟨none, rfl⟩
      | false =>
        refine ⟨some (listMin (images.map (fun im => listMin im.flatten)),
          listMax (images.map (fun im => listMax im.flatten))), ?_⟩
        have hie : images.isEmpty = false := by
          simpa [List.isEmpty_iff] using hne
        have hany : images.any (fun im => im.flatten.isEmpty) = false := by
          simp only [List.any_eq_false]
          intro im him
          simpa [List.isEmpty_iff] using hp im him
        simp [gridNorm, gridSharedNorm, hie, hany]
    obtain ⟨ν, hν⟩ := hnorm
    refine ⟨images.map (fun im => { image := im, norm := ν }), ?_, ?_⟩
    · unfold image_grid
      rw [hnc, hν]
      simp only [Except.bind, if_neg hgrid, htake]
    · rw [List.map_map]
      simp [Function.comp_def]
  · intro images sep
    rfl

/-- C8 witness: the amended statement at two one-pixel panels, nrows = 1,
ncols = 2, shared normalization, and the zero-row error instance. -/
theorem image_grid_no_layout_validation_witness :
    (1 : ℕ) ≤ 1 ∧
    ([[[(0 : ℝ)]], [[(2 : ℝ)]]] : List (List (List ℝ))) ≠ [] ∧
    ([[[(0 : ℝ)]], [[(2 : ℝ)]]] : List (List (List ℝ))).length ≤ 1 * 2 ∧
    (∀ im ∈ ([[[(0 : ℝ)]], [[(2 : ℝ)]]] : List (List (List ℝ))), im.flatten ≠ []) ∧
    (∃ recs, image_grid [[[(0 : ℝ)]], [[(2 : ℝ)]]] 1 (some 2) false = Except.ok recs ∧
      recs.map DrawRec.image = [[[(0 : ℝ)]], [[(2 : ℝ)]]]) ∧
    image_grid [] 0 none true = Except.error GridError.zeroDivision :=
  ⟨by norm_num, by simp, by simp, by simp,
    image_grid_no_layout_validation.1 _ 1 2 false (by norm_num) (by simp) (by simp)
      (by simp),
    image_grid_no_layout_validation.2 [] true⟩

/-! ### Claim C6 -/

/-- C6 counterexample: a negative scale raises no error at all; gopimage
happily returns an image (with negative channel values, since nothing clamps
scale * abs from below). The claimed InvalidParameter validation does not
exist in the code. -/
theorem gopimage_negative_scale_no_error :
    (∃ out, gopimage (Field.cplx [[(1 : ℂ)]]) (-1) = Except.ok out) ∧
      ((-1 : ℝ) < 0) :=
  ⟨⟨_, rfl⟩, by norm_num⟩

/-- C6 (amended): gopimage performs no validation of scale. On any well-shaped
nonzero-size field it returns an output for every real scale, negative values
included; no InvalidParameter error path exists. -/
theorem gopimage_no_scale_validation (V : Field) (s : ℝ)
    (hne : (toW V).flatten ≠ []) :
    ∃ out, gopimage V s = Except.ok out := by
  have hE : ¬ (toW V).flatten.isEmpty = true := by
    simpa [List.isEmpty_iff] using hne
  simp only [gopimage]
  rw [if_neg hE]
  exact ⟨_, rfl⟩

/-- C6 witness: the amended statement at a one-pixel complex field with
scale -2. -/
theorem gopimage_no_scale_validation_witness :
    ((toW (Field.cplx [[(1 : ℂ)]])).flatten ≠ []) ∧
    (∃ out, gopimage (Field.cplx [[(1 : ℂ)]]) (-2) = Except.ok out) :=
  ⟨by simp [toW], gopimage_no_scale_validation (Field.cplx [[(1 : ℂ)]]) (-2)
    (by simp [toW])⟩

/-! ### Claim C2 -/

/-- C2 (code bug): gopimage mutates the caller array for complex input. On the
1 by 1 complex field [[2]] with scale 1, the complex branch binds W to V
itself (line 103), so the in-place normalization W /= max_mag (line 118)
divides the caller array by 2: after the call the caller array holds [[1]],
not its original value [[2]]. -/
theorem gopimage_mutates_complex_input :
    gopimage (Field.cplx [[(2 : ℂ)]]) 1 =
      Except.ok ([[gopPixel 1 1]], Field.cplx [[(1 : ℂ)]]) ∧
    Field.cplx [[(1 : ℂ)]] ≠ Field.cplx [[(2 : ℂ)]] := by
  constructor
  · have h2 : Complex.abs 2 = 2 := Complex.abs_two
    have hm : maxMag [[(2 : ℂ)]] = 2 := by
      rw [maxMag]
      simp [h2]
    have hE : ¬ ([[(2 : ℂ)]] : List (List ℂ)).flatten.isEmpty = true := by simp
    have hq : (2 : ℂ) / ((2 : ℝ) : ℂ) = 1 := by norm_num
    simp only [gopimage, toW]
    rw [if_neg hE]
    simp only [hm]
    rw [if_neg (by norm_num : ¬ (2 : ℝ) = 0)]
    simp [hq, vAfter]
  · intro h
    rw [Field.cplx.injEq] at h
    simp at h

/-! ### Claim C1 -/

/-- Success form of gopimage on a nonzero-size well-shaped field: the output
image maps gopPixel over the conditionally normalized field, and the caller
array is overwritten with the normalized values in the complex branch. -/
theorem gopimage_ok_form (V : Field) (s : ℝ) (hne : (toW V).flatten ≠ []) :
    gopimage V s = Except.ok
      (((if maxMag (toW V) = 0 then toW V
          else (toW V).map (fun row => row.map
            (fun w => w / ((maxMag (toW V) : ℝ) : ℂ)))).map
        (fun row => row.map (gopPixel s)),
        vAfter V (if maxMag (toW V) = 0 then toW V
          else (toW V).map (fun row => row.map
            (fun w => w / ((maxMag (toW V) : ℝ) : ℂ)))))) := by
  have hE : ¬ (toW V).flatten.isEmpty = true := by
    simpa [List.isEmpty_iff] using hne
  simp only [gopimage]
  rw [if_neg hE]

/-- C1: whenever gopimage succeeds, each output pixel is the elementwise
product of the intensity min(1, scale * abs w) and the RGB value of the
interpolant at the hue angle clip(pi + arg(-w), 0, 2 pi), where w is the
sample value divided by the field-wide maximum magnitude when that maximum is
nonzero and left unchanged when it is zero. -/
theorem gopimage_pixel_formula (V : Field) (s : ℝ)
    (img : List (List (ℝ × ℝ × ℝ))) (V2 : Field) (hs : 0 ≤ s)
    (h : gopimage V s = Except.ok (img, V2)) :
    img = ((if maxMag (toW V) = 0 then toW V
        else (toW V).map (fun row => row.map
          (fun w0 => w0 / ((maxMag (toW V) : ℝ) : ℂ)))).map
      (fun row => row.map (fun w =>
        (min 1 (s * Complex.abs w) *
            (cmap_table (min (max (Real.pi + Complex.arg (-w)) 0) (2 * Real.pi))).1,
          min 1 (s * Complex.abs w) *
            (cmap_table (min (max (Real.pi + Complex.arg (-w)) 0) (2 * Real.pi))).2.1,
          min 1 (s * Complex.abs w) *
            (cmap_table (min (max (Real.pi + Complex.arg (-w)) 0) (2 * Real.pi))).2.2)))) := by
  by_cases hE : (toW V).flatten.isEmpty = true
  · exfalso
    simp only [gopimage] at h
    rw [if_pos hE] at h
    exact Except.noConfusion h
  · have hne : (toW V).flatten ≠ [] := by
      simpa [List.isEmpty_iff] using hE
    have hmain := gopimage_ok_form V s hne
    rw [h] at hmain
    injection hmain with hpair
    have himg := congrArg Prod.fst hpair
    exact himg

/-- C1 witness: the pixel formula applied to the one-pixel complex field [[0]]
with scale 1 (a field whose maximum magnitude is zero, so normalization is
skipped). -/
theorem gopimage_pixel_formula_witness :
    (0 : ℝ) ≤ 1 ∧
    gopimage (Field.cplx [[(0 : ℂ)]]) 1 =
      Except.ok ([[gopPixel 1 0]], Field.cplx [[(0 : ℂ)]]) ∧
    [[gopPixel 1 0]] =
      ((if maxMag (toW (Field.cplx [[(0 : ℂ)]])) = 0 then toW (Field.cplx [[(0 : ℂ)]])
          else (toW (Field.cplx [[(0 : ℂ)]])).map (fun row => row.map
            (fun w0 => w0 / ((maxMag (toW (Field.cplx [[(0 : ℂ)]])) : ℝ) : ℂ)))).map
        (fun row => row.map (fun w =>
          (min 1 (1 * Complex.abs w) *
              (cmap_table (min (max (Real.pi + Complex.arg (-w)) 0) (2 * Real.pi))).1,
            min 1 (1 * Complex.abs w) *
              (cmap_table (min (max (Real.pi + Complex.arg (-w)) 0) (2 * Real.pi))).2.1,
            min 1 (1 * Complex.abs w) *
              (cmap_table (min (max (Real.pi + Complex.arg (-w)) 0) (2 * Real.pi))).2.2)))) := by
  have hm0 : maxMag [[(0 : ℂ)]] = 0 := by
    simp [maxMag]
  have hok : gopimage (Field.cplx [[(0 : ℂ)]]) 1 =
      Except.ok ([[gopPixel 1 0]], Field.cplx [[(0 : ℂ)]]) := by
    simp only [gopimage, toW]
    rw [if_neg (by simp : ¬ ([[(0 : ℂ)]] : List (List ℂ)).flatten.isEmpty = true)]
    simp [hm0, vAfter]
  exact ⟨by norm_num, hok,
    gopimage_pixel_formula (Field.cplx [[(0 : ℂ)]]) 1 _ _ (by norm_num) hok⟩

/-! ### Claim C3 -/

theorem headD_mem {α : Type} (l : List α) (d : α) (h : l ≠ []) : l.headD d ∈ l := by
  cases l with
  | nil => exact absurd rfl h
  | cons a t => simp

theorem getD_mem_or {α : Type} :
    ∀ (l : List α) (i : ℕ) (d : α), l.getD i d ∈ l ∨ l.getD i d = d
  | [], _, _ => Or.inr rfl
  | a :: t, 0, _ => Or.inl (List.mem_cons_self a t)
  | a :: t, i + 1, d => by
    rcases getD_mem_or t i d with h | h
    · exact Or.inl (List.mem_cons_of_mem a h)
    · exact Or.inr h

/-- Every numerator triple in the transcribed table is at most 255. -/
theorem GOPTABLE256_le :
    ∀ t ∈ GOPTABLE256, t.1 ≤ 255 ∧ t.2.1 ≤ 255 ∧ t.2.2 ≤ 255 := by decide

theorem mem_GOPTABLE_bounds :
    ∀ e ∈ GOPTABLE, (0 ≤ e.1 ∧ e.1 ≤ 1) ∧ (0 ≤ e.2.1 ∧ e.2.1 ≤ 1) ∧
      (0 ≤ e.2.2 ∧ e.2.2 ≤ 1) := by
  intro e he
  rw [GOPTABLE] at he
  obtain ⟨t, ht, rfl⟩ := List.mem_map.mp he
  obtain ⟨h1, h2, h3⟩ := GOPTABLE256_le t ht
  refine ⟨⟨by positivity, ?_⟩, ⟨by positivity, ?_⟩, ⟨by positivity, ?_⟩⟩
  · rw [div_le_one (by norm_num : (0 : ℚ) < 256)]
    exact_mod_cast Nat.le_trans h1 (by norm_num)
  · rw [div_le_one (by norm_num : (0 : ℚ) < 256)]
    exact_mod_cast Nat.le_trans h2 (by norm_num)
  · rw [div_le_one (by norm_num : (0 : ℚ) < 256)]
    exact_mod_cast Nat.le_trans h3 (by norm_num)

theorem GOPTABLE_ne_nil : GOPTABLE ≠ [] := by
  have hlen : GOPTABLE.length = 256 := rfl
  intro h
  rw [h] at hlen
  exact absurd hlen (by norm_num)

theorem mem_gtab_bounds :
    ∀ e ∈ gtab, (0 ≤ e.1 ∧ e.1 ≤ 1) ∧ (0 ≤ e.2.1 ∧ e.2.1 ≤ 1) ∧
      (0 ≤ e.2.2 ∧ e.2.2 ≤ 1) := by
  intro e he
  rw [gtab] at he
  rcases List.mem_append.mp he with h | h
  · exact mem_GOPTABLE_bounds e h
  · rw [List.mem_singleton] at h
    subst h
    exact mem_GOPTABLE_bounds _ (headD_mem _ _ GOPTABLE_ne_nil)

theorem rgbAt_bounds (k : ℕ) :
    (0 ≤ (rgbAt k).1 ∧ (rgbAt k).1 ≤ 1) ∧
    (0 ≤ (rgbAt k).2.1 ∧ (rgbAt k).2.1 ≤ 1) ∧
    (0 ≤ (rgbAt k).2.2 ∧ (rgbAt k).2.2 ≤ 1) := by
  rw [rgbAt]
  dsimp only
  rcases getD_mem_or gtab k (0, 0, 0) with h | h
  · obtain ⟨⟨a1, a2⟩, ⟨b1, b2⟩, ⟨c1, c2⟩⟩ := mem_gtab_bounds _ h
    exact ⟨⟨by exact_mod_cast a1, by exact_mod_cast a2⟩,
      ⟨by exact_mod_cast b1, by exact_mod_cast b2⟩,
      ⟨by exact_mod_cast c1, by exact_mod_cast c2⟩⟩
  · rw [h]
    norm_num

/-- Bounds on the interpolation weight t = u - k of cmap_table for a
fractional index u in [0, 256]. -/
theorem interp_t_bounds (u : ℝ) (h0 : 0 ≤ u) (h1 : u ≤ 256) :
    0 ≤ u - ((min (Int.toNat ⌊u⌋) 255 : ℕ) : ℝ) ∧
    u - ((min (Int.toNat ⌊u⌋) 255 : ℕ) : ℝ) ≤ 1 := by
  have hfl0 : (0 : ℤ) ≤ ⌊u⌋ := Int.floor_nonneg.mpr h0
  rcases le_or_lt (Int.toNat ⌊u⌋) 255 with hle | hgt
  · rw [min_eq_left hle]
    have hcast : ((Int.toNat ⌊u⌋ : ℕ) : ℝ) = ((⌊u⌋ : ℤ) : ℝ) := by
      exact_mod_cast congrArg (fun z : ℤ => (z : ℝ)) (Int.toNat_of_nonneg hfl0)
    rw [hcast]
    constructor
    · linarith [Int.floor_le u]
    · linarith [Int.lt_floor_add_one u]
  · rw [min_eq_right (le_of_lt hgt)]
    have h256 : (256 : ℤ) ≤ ⌊u⌋ := by
      have := Int.lt_toNat.mp hgt
      omega
    have hu256 : (256 : ℝ) ≤ u := by
      have hc : ((256 : ℤ) : ℝ) ≤ ((⌊u⌋ : ℤ) : ℝ) := by exact_mod_cast h256
      have := Int.floor_le u
      push_cast at hc
      linarith
    have hu : u = 256 := le_antisymm h1 hu256
    rw [hu]
    norm_num

theorem lerp_unit (t a b : ℝ) (ht0 : 0 ≤ t) (ht1 : t ≤ 1) (ha0 : 0 ≤ a)
    (ha1 : a ≤ 1) (hb0 : 0 ≤ b) (hb1 : b ≤ 1) :
    0 ≤ (1 - t) * a + t * b ∧ (1 - t) * a + t * b ≤ 1 := by
  constructor <;> nlinarith

theorem cmap_table_bounds (θ : ℝ) (h0 : 0 ≤ θ) (h2 : θ ≤ 2 * Real.pi) :
    (0 ≤ (cmap_table θ).1 ∧ (cmap_table θ).1 ≤ 1) ∧
    (0 ≤ (cmap_table θ).2.1 ∧ (cmap_table θ).2.1 ≤ 1) ∧
    (0 ≤ (cmap_table θ).2.2 ∧ (cmap_table θ).2.2 ≤ 1) := by
  have hu0 : 0 ≤ θ * 256 / (2 * Real.pi) :=
    div_nonneg (by linarith) (by positivity)
  have hu256 : θ * 256 / (2 * Real.pi) ≤ 256 := by
    rw [div_le_iff (by positivity)]
    have := mul_le_mul_of_nonneg_right h2 (show (0 : ℝ) ≤ 256 by norm_num)
    linarith
  obtain ⟨ht0, ht1⟩ := interp_t_bounds _ hu0 hu256
  have hA := rgbAt_bounds (min (Int.toNat ⌊θ * 256 / (2 * Real.pi)⌋) 255)
  have hB := rgbAt_bounds (min (Int.toNat ⌊θ * 256 / (2 * Real.pi)⌋) 255 + 1)
  simp only [cmap_table]
  exact ⟨lerp_unit _ _ _ ht0 ht1 hA.1.1 hA.1.2 hB.1.1 hB.1.2,
    lerp_unit _ _ _ ht0 ht1 hA.2.1.1 hA.2.1.2 hB.2.1.1 hB.2.1.2,
    lerp_unit _ _ _ ht0 ht1 hA.2.2.1 hA.2.2.2 hB.2.2.1 hB.2.2.2⟩

theorem angleW_bounds (w : ℂ) : 0 ≤ angleW w ∧ angleW w ≤ 2 * Real.pi := by
  rw [angleW]
  exact ⟨le_min (le_max_right _ _) (by positivity), min_le_right _ _⟩

theorem absW_bounds (s : ℝ) (hs : 0 ≤ s) (w : ℂ) :
    0 ≤ absW s w ∧ absW s w ≤ 1 := by
  rw [absW]
  exact ⟨le_min (by norm_num)
    (mul_nonneg hs (AbsoluteValue.nonneg Complex.abs w)), min_le_left _ _⟩

theorem gopPixel_bounds (s : ℝ) (hs : 0 ≤ s) (w : ℂ) :
    (0 ≤ (gopPixel s w).1 ∧ (gopPixel s w).1 ≤ 1) ∧
    (0 ≤ (gopPixel s w).2.1 ∧ (gopPixel s w).2.1 ≤ 1) ∧
    (0 ≤ (gopPixel s w).2.2 ∧ (gopPixel s w).2.2 ≤ 1) := by
  obtain ⟨hi0, hi1⟩ := absW_bounds s hs w
  obtain ⟨ha0, ha2⟩ := angleW_bounds w
  obtain ⟨⟨c10, c11⟩, ⟨c20, c21⟩, ⟨c30, c31⟩⟩ := cmap_table_bounds (angleW w) ha0 ha2
  simp only [gopPixel]
  refine ⟨⟨mul_nonneg hi0 c10, ?_⟩, ⟨mul_nonneg hi0 c20, ?_⟩,
    ⟨mul_nonneg hi0 c30, ?_⟩⟩ <;> nlinarith

/-- C3: on every nonzero-size well-shaped rows by cols motion field and every
nonnegative scale, gopimage succeeds and the computed color image has rows
rows of cols RGB pixels, every channel of which lies in [0, 1]. -/
theorem gopimage_shape_range (V : Field) (s : ℝ) (rows cols : ℕ) (hs : 0 ≤ s)
    (hrows : (toW V).length = rows)
    (hcols : ∀ row ∈ toW V, row.length = cols)
    (hne : (toW V).flatten ≠ []) :
    ∃ img V2, gopimage V s = Except.ok (img, V2) ∧
      img.length = rows ∧ (∀ row ∈ img, row.length = cols) ∧
      (∀ row ∈ img, ∀ p ∈ row,
        (0 ≤ p.1 ∧ p.1 ≤ 1) ∧ (0 ≤ p.2.1 ∧ p.2.1 ≤ 1) ∧
        (0 ≤ p.2.2 ∧ p.2.2 ≤ 1)) := by
  refine ⟨_, _, gopimage_ok_form V s hne, ?_, ?_, ?_⟩
  · by_cases hm : maxMag (toW V) = 0 <;>
      simp [hm, hrows]
  · intro row hrow
    by_cases hm : maxMag (toW V) = 0
    · rw [if_pos hm] at hrow
      obtain ⟨r0, hr0, rfl⟩ := List.mem_map.mp hrow
      simpa using hcols r0 hr0
    · rw [if_neg hm] at hrow
      rw [List.map_map] at hrow
      obtain ⟨r0, hr0, rfl⟩ := List.mem_map.mp hrow
      simpa using hcols r0 hr0
  · intro row hrow p hp
    obtain ⟨r0, hr0, rfl⟩ := List.mem_map.mp hrow
    obtain ⟨w, hw, rfl⟩ := List.mem_map.mp hp
    exact gopPixel_bounds s hs w

/-- C3 witness: the one-pixel complex field [[2]] with scale 1 has a 1 by 1
output with all channels in the unit interval. -/
theorem gopimage_shape_range_witness :
    (0 : ℝ) ≤ 1 ∧ (toW (Field.cplx [[(2 : ℂ)]])).length = 1 ∧
    (∀ row ∈ toW (Field.cplx [[(2 : ℂ)]]), row.length = 1) ∧
    (toW (Field.cplx [[(2 : ℂ)]])).flatten ≠ [] ∧
    (∃ img V2, gopimage (Field.cplx [[(2 : ℂ)]]) 1 = Except.ok (img, V2) ∧
      img.length = 1 ∧ (∀ row ∈ img, row.length = 1) ∧
      (∀ row ∈ img, ∀ p ∈ row,
        (0 ≤ p.1 ∧ p.1 ≤ 1) ∧ (0 ≤ p.2.1 ∧ p.2.1 ≤ 1) ∧
        (0 ≤ p.2.2 ∧ p.2.2 ≤ 1))) :=
  ⟨by norm_num, rfl, by simp [toW], by simp [toW],
    gopimage_shape_range (Field.cplx [[(2 : ℂ)]]) 1 1 1 (by norm_num) rfl
      (by simp [toW]) (by simp [toW])⟩

/-! ### Claim C4 -/

theorem foldl_min_le_init : ∀ (xs : List ℝ) (b : ℝ), xs.foldl min b ≤ b
  | [], b => le_refl b
  | x :: xs, b => le_trans (foldl_min_le_init xs (min b x)) (min_le_left b x)

theorem foldl_min_le_mem : ∀ (xs : List ℝ) (b x : ℝ), x ∈ xs → xs.foldl min b ≤ x
  | [], _, x, h => absurd h (List.not_mem_nil x)
  | y :: ys, b, x, h => by
    rcases List.mem_cons.mp h with rfl | h2
    · exact le_trans (foldl_min_le_init ys (min b x)) (min_le_right b x)
    · exact foldl_min_le_mem ys (min b y) x h2

theorem foldl_min_mem_or :
    ∀ (xs : List ℝ) (b : ℝ), xs.foldl min b = b ∨ xs.foldl min b ∈ xs
  | [], b => Or.inl rfl
  | y :: ys, b => by
    rcases foldl_min_mem_or ys (min b y) with h | h
    · rcases min_cases b y with ⟨he, _⟩ | ⟨he, _⟩
      · exact Or.inl (by rw [List.foldl_cons, h, he])
      · refine Or.inr ?_
        rw [List.foldl_cons, h, he]
        exact List.mem_cons_self y ys
    · exact Or.inr (List.mem_cons_of_mem y h)

theorem le_foldl_min :
    ∀ (xs : List ℝ) (b a : ℝ), a ≤ b → (∀ x ∈ xs, a ≤ x) → a ≤ xs.foldl min b
  | [], _, _, hb, _ => hb
  | y :: ys, b, a, hb, hx => by
    refine le_foldl_min ys (min b y) a
      (le_min hb (hx y (List.mem_cons_self y ys))) ?_
    intro x hxx
    exact hx x (List.mem_cons_of_mem y hxx)

theorem listMin_le (xs : List ℝ) (x : ℝ) (h : x ∈ xs) : listMin xs ≤ x :=
  foldl_min_le_mem xs _ x h

theorem listMin_mem (xs : List ℝ) (h : xs ≠ []) : listMin xs ∈ xs := by
  rcases foldl_min_mem_or xs (xs.headD 0) with h2 | h2
  · rw [listMin, h2]
    exact headD_mem xs 0 h
  · rw [listMin]
    exact h2

theorem le_listMin (xs : List ℝ) (a : ℝ) (h : xs ≠ []) (ha : ∀ x ∈ xs, a ≤ x) :
    a ≤ listMin xs := by
  rw [listMin]
  exact le_foldl_min xs _ a (ha _ (headD_mem xs 0 h)) ha

theorem foldl_max_init_le : ∀ (xs : List ℝ) (b : ℝ), b ≤ xs.foldl max b
  | [], b => le_refl b
  | x :: xs, b => le_trans (le_max_left b x) (foldl_max_init_le xs (max b x))

theorem foldl_max_mem_le : ∀ (xs : List ℝ) (b x : ℝ), x ∈ xs → x ≤ xs.foldl max b
  | [], _, x, h => absurd h (List.not_mem_nil x)
  | y :: ys, b, x, h => by
    rcases List.mem_cons.mp h with rfl | h2
    · exact le_trans (le_max_right b x) (foldl_max_init_le ys (max b x))
    · exact foldl_max_mem_le ys (max b y) x h2

theorem foldl_max_mem_or :
    ∀ (xs : List ℝ) (b : ℝ), xs.foldl max b = b ∨ xs.foldl max b ∈ xs
  | [], b => Or.inl rfl
  | y :: ys, b => by
    rcases foldl_max_mem_or ys (max b y) with h | h
    · rcases max_cases b y with ⟨he, _⟩ | ⟨he, _⟩
      · exact Or.inl (by rw [List.foldl_cons, h, he])
      · refine Or.inr ?_
        rw [List.foldl_cons, h, he]
        exact List.mem_cons_self y ys
    · exact Or.inr (List.mem_cons_of_mem y h)

theorem foldl_max_le :
    ∀ (xs : List ℝ) (b a : ℝ), b ≤ a → (∀ x ∈ xs, x ≤ a) → xs.foldl max b ≤ a
  | [], _, _, hb, _ => hb
  | y :: ys, b, a, hb, hx => by
    refine foldl_max_le ys (max b y) a
      (max_le hb (hx y (List.mem_cons_self y ys))) ?_
    intro x hxx
    exact hx x (List.mem_cons_of_mem y hxx)

theorem listMax_ge (xs : List ℝ) (x : ℝ) (h : x ∈ xs) : x ≤ listMax xs :=
  foldl_max_mem_le xs _ x h

theorem listMax_mem (xs : List ℝ) (h : xs ≠ []) : listMax xs ∈ xs := by
  rcases foldl_max_mem_or xs (xs.headD 0) with h2 | h2
  · rw [listMax, h2]
    exact headD_mem xs 0 h
  · rw [listMax]
    exact h2

theorem listMax_le (xs : List ℝ) (a : ℝ) (h : xs ≠ []) (ha : ∀ x ∈ xs, x ≤ a) :
    listMax xs ≤ a := by
  rw [listMax]
  exact foldl_max_le xs _ a (ha _ (headD_mem xs 0 h)) ha

/-- The minimum of the per-list minima is the minimum of the concatenation. -/
theorem listMin_flatten (xss : List (List ℝ)) (hne : xss ≠ [])
    (hx : ∀ xs ∈ xss, xs ≠ []) :
    listMin (xss.map listMin) = listMin xss.flatten := by
  have hmapne : xss.map listMin ≠ [] := by simpa using hne
  have hfne : xss.flatten ≠ [] := by
    cases xss with
    | nil => exact absurd rfl hne
    | cons y ys =>
      have hy : y ≠ [] := hx y (List.mem_cons_self y ys)
      cases y with
      | nil => exact absurd rfl hy
      | cons a t => simp
  apply le_antisymm
  · obtain ⟨xs, hxs, hmemxs⟩ := List.mem_flatten.mp (listMin_mem xss.flatten hfne)
    calc listMin (xss.map listMin) ≤ listMin xs :=
          listMin_le _ _ (List.mem_map_of_mem listMin hxs)
      _ ≤ listMin xss.flatten := listMin_le xs _ hmemxs
  · obtain ⟨xs, hxs, heq⟩ := List.mem_map.mp (listMin_mem (xss.map listMin) hmapne)
    rw [← heq]
    exact listMin_le xss.flatten (listMin xs)
      (List.mem_flatten.mpr ⟨xs, hxs, listMin_mem xs (hx xs hxs)⟩)

/-- The maximum of the per-list maxima is the maximum of the concatenation. -/
theorem listMax_flatten (xss : List (List ℝ)) (hne : xss ≠ [])
    (hx : ∀ xs ∈ xss, xs ≠ []) :
    listMax (xss.map listMax) = listMax xss.flatten := by
  have hmapne : xss.map listMax ≠ [] := by simpa using hne
  have hfne : xss.flatten ≠ [] := by
    cases xss with
    | nil => exact absurd rfl hne
    | cons y ys =>
      have hy : y ≠ [] := hx y (List.mem_cons_self y ys)
      cases y with
      | nil => exact absurd rfl hy
      | cons a t => simp
  apply le_antisymm
  · obtain ⟨xs, hxs, heq⟩ := List.mem_map.mp (listMax_mem (xss.map listMax) hmapne)
    rw [← heq]
    exact listMax_ge xss.flatten (listMax xs)
      (List.mem_flatten.mpr ⟨xs, hxs, listMax_mem xs (hx xs hxs)⟩)
  · obtain ⟨xs, hxs, hmemxs⟩ := List.mem_flatten.mp (listMax_mem xss.flatten hfne)
    calc listMax xss.flatten ≤ listMax xs := listMax_ge xs _ hmemxs
      _ ≤ listMax (xss.map listMax) :=
          listMax_ge _ _ (List.mem_map_of_mem listMax hxs)

theorem le_mul_ceilDiv (count nrows : ℕ) (h : 1 ≤ nrows) :
    count ≤ nrows * ((count + nrows - 1) / nrows) := by
  have h1 : nrows * ((count + nrows - 1) / nrows) + (count + nrows - 1) % nrows =
      count + nrows - 1 := Nat.div_add_mod _ _
  have h2 : (count + nrows - 1) % nrows < nrows := Nat.mod_lt _ (by omega)
  obtain ⟨P, hP⟩ : ∃ P, nrows * ((count + nrows - 1) / nrows) = P := ⟨_, rfl⟩
  rw [hP] at h1 ⊢
  omega

/-- C4: with a nonempty panel collection (of nonzero-size panels), default
column count and separate_colorbars=False, image_grid draws every panel, and
every drawn panel carries the same normalization, whose vmin and vmax are the
minimum and maximum over the concatenation of the raw values of all panels,
computed before any panel is drawn. -/
theorem image_grid_shared_norm (images : List (List (List ℝ))) (nrows : ℕ)
    (hnr : 1 ≤ nrows) (hne : images ≠ [])
    (hp : ∀ im ∈ images, im.flatten ≠ []) :
    ∃ recs, image_grid images nrows none false = Except.ok recs ∧
      recs.map DrawRec.image = images ∧
      (∀ r ∈ recs, r.norm = some (listMin (images.map List.flatten).flatten,
        listMax (images.map List.flatten).flatten)) := by
  have hcount : 0 < images.length := List.length_pos.mpr hne
  have h0 : ¬ nrows = 0 := by omega
  have hnc : gridNcolsArg images.length nrows none =
      Except.ok ((images.length + nrows - 1) / nrows) := by
    simp [gridNcolsArg, gridNcols, h0]
  have hcap : images.length ≤ nrows * ((images.length + nrows - 1) / nrows) :=
    le_mul_ceilDiv _ _ hnr
  have hgrid : ¬ nrows * ((images.length + nrows - 1) / nrows) = 0 := by omega
  have htake : images.take (nrows * ((images.length + nrows - 1) / nrows)) =
      images := List.take_of_length_le hcap
  have hie : images.isEmpty = false := by
    simpa [List.isEmpty_iff] using hne
  have hany : images.any (fun im => im.flatten.isEmpty) = false := by
    simp only [List.any_eq_false]
    intro im him
    simpa [List.isEmpty_iff] using hp im him
  have hxss : ∀ xs ∈ images.map List.flatten, xs ≠ [] := by
    intro xs hxs
    obtain ⟨im, him, rfl⟩ := List.mem_map.mp hxs
    exact hp im him
  have hmins : listMin (images.map (fun im => listMin im.flatten)) =
      listMin (images.map List.flatten).flatten := by
    have hcomp : images.map (fun im => listMin im.flatten) =
        (images.map List.flatten).map listMin := by
      rw [List.map_map]
      rfl
    rw [hcomp]
    exact listMin_flatten _ (by simpa using hne) hxss
  have hmaxs : listMax (images.map (fun im => listMax im.flatten)) =
      listMax (images.map List.flatten).flatten := by
    have hcomp : images.map (fun im => listMax im.flatten) =
        (images.map List.flatten).map listMax := by
      rw [List.map_map]
      rfl
    rw [hcomp]
    exact listMax_flatten _ (by simpa using hne) hxss
  have hsn : gridNorm images false =
      Except.ok (some (listMin (images.map List.flatten).flatten,
        listMax (images.map List.flatten).flatten)) := by
    simp [gridNorm, gridSharedNorm, hie, hany, hmins, hmaxs]
  refine ⟨images.map (fun im => DrawRec.mk im
    (some (listMin (images.map List.flatten).flatten,
      listMax (images.map List.flatten).flatten))), ?_, ?_, ?_⟩
  · unfold image_grid
    rw [hnc, hsn]
    simp only [Except.bind, if_neg hgrid, htake]
  · rw [List.map_map]
    simp [Function.comp_def]
  · intro r hr
    obtain ⟨im, him, rfl⟩ := List.mem_map.mp hr
    rfl

/-- C4 witness: two one-row panels with ranges [0, 10] and [5, 20] under the
shared policy; both drawn panels carry the normalization over the
concatenated values. -/
theorem image_grid_shared_norm_witness :
    (1 : ℕ) ≤ 1 ∧
    ([[[(0 : ℝ), 10]], [[(5 : ℝ), 20]]] : List (List (List ℝ))) ≠ [] ∧
    (∀ im ∈ ([[[(0 : ℝ), 10]], [[(5 : ℝ), 20]]] : List (List (List ℝ))),
      im.flatten ≠ []) ∧
    (∃ recs, image_grid [[[(0 : ℝ), 10]], [[(5 : ℝ), 20]]] 1 none false =
        Except.ok recs ∧
      recs.map DrawRec.image = [[[(0 : ℝ), 10]], [[(5 : ℝ), 20]]] ∧
      (∀ r ∈ recs, r.norm = some
        (listMin (([[[(0 : ℝ), 10]], [[(5 : ℝ), 20]]] :
            List (List (List ℝ))).map List.flatten).flatten,
          listMax (([[[(0 : ℝ), 10]], [[(5 : ℝ), 20]]] :
            List (List (List ℝ))).map List.flatten).flatten))) :=
  ⟨by norm_num, by simp, by simp,
    image_grid_shared_norm [[[(0 : ℝ), 10]], [[(5 : ℝ), 20]]] 1 (by norm_num)
      (by simp) (by simp)⟩

/-! ### Claim C10 -/

theorem toW_smul (c : ℝ) (V : Field) :
    toW (smulField c V) = (toW V).map (fun row => row.map (fun w => (c : ℂ) * w)) := by
  cases V with
  | cplx d => rfl
  | real2 d =>
    simp only [smulField, toW, List.map_map]
    congr 1
    funext row
    simp only [Function.comp_def, List.map_map]
    congr 1
    funext p
    apply Complex.ext <;> simp

theorem foldl_max_mul (c : ℝ) (hc : 0 ≤ c) :
    ∀ (xs : List ℝ) (b : ℝ),
      (xs.map (fun x => c * x)).foldl max (c * b) = c * xs.foldl max b
  | [], _ => rfl
  | x :: xs, b => by
    rw [List.map_cons, List.foldl_cons, List.foldl_cons,
      ← mul_max_of_nonneg _ _ hc, foldl_max_mul c hc xs (max b x)]

theorem maxMag_smul (c : ℝ) (hc : 0 ≤ c) (W : List (List ℂ)) :
    maxMag (W.map (fun row => row.map (fun w => (c : ℂ) * w))) = c * maxMag W := by
  rw [maxMag, maxMag]
  have hflat : (W.map (fun row => row.map (fun w => (c : ℂ) * w))).flatten =
      W.flatten.map (fun w => (c : ℂ) * w) :=
    (List.map_flatten _ W).symm
  rw [hflat, List.map_map]
  have hcomp : (Complex.abs ∘ fun w => (c : ℂ) * w) =
      ((fun x => c * x) ∘ Complex.abs) := by
    funext w
    simp [Function.comp_def, map_mul, Complex.abs_ofReal, abs_of_nonneg hc]
  rw [hcomp, ← List.map_map]
  have h := foldl_max_mul c hc (W.flatten.map Complex.abs) 0
  rw [mul_zero] at h
  exact h

theorem maxMag_pos (W : List (List ℂ)) (w : ℂ) (hmem : w ∈ W.flatten)
    (hw : w ≠ 0) : 0 < maxMag W := by
  have h1 : Complex.abs w ≤ maxMag W := by
    rw [maxMag]
    exact foldl_max_mem_le _ _ _ (List.mem_map_of_mem Complex.abs hmem)
  have h2 : 0 < Complex.abs w := AbsoluteValue.pos Complex.abs hw
  linarith

/-- C10: encoding is invariant under uniform positive scaling of the motion
field. For every well-shaped field with at least one nonzero vector, every
constant c > 0 and every nonnegative scale, gopimage on the field with every
vector multiplied by c computes the same color image as gopimage on the
original field (the post-call array states may differ, so only the image
component is compared). -/
theorem gopimage_scale_invariant (V : Field) (c s : ℝ) (hc : 0 < c)
    (hs : 0 ≤ s) (hnz : ∃ w ∈ (toW V).flatten, w ≠ 0) :
    (gopimage (smulField c V) s).map Prod.fst =
      (gopimage V s).map Prod.fst := by
  obtain ⟨w0, hw0mem, hw0⟩ := hnz
  have hM : 0 < maxMag (toW V) := maxMag_pos _ _ hw0mem hw0
  have hne : (toW V).flatten ≠ [] := by
    intro h
    rw [h] at hw0mem
    exact (List.not_mem_nil w0) hw0mem
  have hflat : (toW (smulField c V)).flatten =
      (toW V).flatten.map (fun w => (c : ℂ) * w) := by
    rw [toW_smul]
    exact (List.map_flatten _ _).symm
  have hneS : (toW (smulField c V)).flatten ≠ [] := by
    rw [hflat]
    simpa using hne
  have hMS : maxMag (toW (smulField c V)) = c * maxMag (toW V) := by
    rw [toW_smul]
    exact maxMag_smul c (le_of_lt hc) _
  have hdiv : ∀ w : ℂ,
      ((c : ℂ) * w) / (((c * maxMag (toW V) : ℝ)) : ℂ) =
        w / ((maxMag (toW V) : ℝ) : ℂ) := by
    intro w
    have hc' : (c : ℂ) ≠ 0 := by exact_mod_cast ne_of_gt hc
    have hM' : ((maxMag (toW V) : ℝ) : ℂ) ≠ 0 := by
      exact_mod_cast ne_of_gt hM
    push_cast
    field_simp
    ring
  have hmap : ∀ (a : List (List (ℝ × ℝ × ℝ))) (b : Field),
      Except.map Prod.fst (Except.ok (a, b) : Except GopError _) =
        Except.ok a := fun _ _ => rfl
  rw [gopimage_ok_form V s hne, gopimage_ok_form (smulField c V) s hneS,
    hmap, hmap]
  congr 1
  rw [hMS, toW_smul]
  rw [if_neg (ne_of_gt (mul_pos hc hM)), if_neg (ne_of_gt hM)]
  have hrow : ∀ row : List ℂ,
      List.map (fun w => w / (((c * maxMag (toW V) : ℝ)) : ℂ))
          (List.map (fun w => (c : ℂ) * w) row) =
        List.map (fun w => w / ((maxMag (toW V) : ℝ) : ℂ)) row := by
    intro row
    induction row with
    | nil => rfl
    | cons a t ih =>
      simp only [List.map_cons]
      rw [hdiv a, ih]
  have houter : ∀ X : List (List ℂ),
      List.map (fun row => List.map (fun w => w / (((c * maxMag (toW V) : ℝ)) : ℂ)) row)
          (List.map (fun row => List.map (fun w => (c : ℂ) * w) row) X) =
        List.map (fun row => List.map (fun w => w / ((maxMag (toW V) : ℝ) : ℂ)) row) X := by
    intro X
    induction X with
    | nil => rfl
    | cons r rs ih =>
      simp only [List.map_cons]
      rw [hrow r, ih]
  exact congrArg (List.map (fun row => List.map (gopPixel s) row)) (houter (toW V))

/-- C10 witness: doubling the one-pixel complex field [[1]] leaves the encoded
image unchanged. -/
theorem gopimage_scale_invariant_witness :
    (0 : ℝ) < 2 ∧ (0 : ℝ) ≤ 1 ∧
    (∃ w ∈ (toW (Field.cplx [[(1 : ℂ)]])).flatten, w ≠ 0) ∧
    (gopimage (smulField 2 (Field.cplx [[(1 : ℂ)]])) 1).map Prod.fst =
      (gopimage (Field.cplx [[(1 : ℂ)]]) 1).map Prod.fst :=
  ⟨by norm_num, by norm_num, ⟨1, by simp [toW], one_ne_zero⟩,
    gopimage_scale_invariant (Field.cplx [[(1 : ℂ)]]) 2 1 (by norm_num)
      (by norm_num) ⟨1, by simp [toW], one_ne_zero⟩⟩

end TSBB15
